import Mathlib

/-!
Shallow embedding of the live-session subsystem of the EduVerse repository:
the audio transcriber component (src/unnamed/part_002) and the deep-dive
live session of src/components/VideoProcessor.tsx, together with the PCM
encoding loop and the history persistence helpers.

Modelling conventions:
* Machine floats captured from the microphone are modelled as rationals;
  multiplication by the power of two 32768 is exact on floats, so the
  rational model is faithful for every representable sample.
* The reactive runtime is single threaded (spec section 5): React state
  updates are modelled as immediate sequential assignments. One exception
  is modelled explicitly: a useCallback closure reads the state value of
  the render that created it, not the current one, so the deep-dive
  teardown guard receives the render-captured status as a separate
  parameter from the current component state.
* External platform primitives (JSON.parse, the audio decoding helper that
  lives outside src/) appear as parameters or as definitions whose doc
  comment says they are modelled from the spec.
* Browser resource calls (track.stop, node.disconnect, context.close,
  remote session close) are recorded in an explicit operation log, so that
  claims about which resource operations a call performs are statable.
-/

namespace EduVerse

/-- Speaker tag of a conversation turn. -/
inductive Speaker where
  | user
  | model
deriving DecidableEq, Repr

/-- Conversation turn of the audio transcriber
(src/unnamed/part_002 lines 12-16). -/
structure ConversationTurn where
  speaker : Speaker
  text : String
  isFinal : Bool
deriving DecidableEq, Repr

/-- Conversation turn of the deep-dive session
(src/components/VideoProcessor.tsx lines 15-18): no isFinal field. -/
structure DDTurn where
  speaker : Speaker
  text : String
deriving DecidableEq, Repr

/-- Arguments of the generateLearningReport tool call
(src/components/VideoProcessor.tsx lines 62-74). -/
structure ReportArgs where
  strengths : String
  weaknesses : String
  plan : String
deriving DecidableEq, Repr

/-- One entry of message.toolCall.functionCalls. -/
structure FunctionCall where
  name : String
  args : Option ReportArgs
deriving DecidableEq, Repr

/-- The fields of a LiveServerMessage that the two onmessage handlers read.
audioFrames is the sample-frame count of the decoded audio part
(message.serverContent.modelTurn.parts[0].inlineData.data). -/
structure LiveMsg where
  inputTranscription : Option String
  outputTranscription : Option String
  audioFrames : Option Nat
  interrupted : Bool
  turnComplete : Bool
  functionCalls : List FunctionCall
deriving DecidableEq, Repr

/-- A stored audio history item (src/unnamed/part_002 lines 18-22). -/
structure AudioHistoryItem where
  id : String
  timestamp : Nat
  conversation : List ConversationTurn
deriving DecidableEq, Repr

/-! ## Audio output scheduler

Both live-session implementations contain the identical enqueue path
(src/unnamed/part_002 lines 144-152 and
src/components/VideoProcessor.tsx lines 413-421), so it is embedded once. -/

/-- A scheduled playback segment: start time and duration in seconds. -/
structure Segment where
  start : ℚ
  dur : ℚ
deriving DecidableEq, Repr

/-- An active playback handle (an AudioBufferSourceNode held in
audioSourcesRef). -/
structure PlaybackHandle where
  id : Nat
  seg : Segment
deriving DecidableEq, Repr

/-- State owned by the audio output scheduler: the playback clock
nextStartTimeRef, the active handle set audioSourcesRef (kept in insertion
order), a counter for fresh handle ids, a ghost log of every segment ever
scheduled, and a ghost log of the handle ids on which stop was invoked. -/
structure SchedulerState where
  nextStartTime : ℚ
  activeHandles : List PlaybackHandle
  nextId : Nat
  scheduled : List Segment
  stopLog : List Nat
deriving DecidableEq, Repr

/-- Scheduler state right after session start (nextStartTimeRef.current = 0
and audioSourcesRef.current.clear(), src/unnamed/part_002 lines 106-107). -/
def freshSched : SchedulerState :=
  { nextStartTime := 0, activeHandles := [], nextId := 0
    scheduled := [], stopLog := [] }

/-- The individual statements the enqueue path executes, in program order. -/
inductive OpKind where
  | setClockMax
  | decodeChunk
  | createSource
  | connectSource
  | listenEnded
  | startSource
  | advanceClock
  | registerHandle
deriving DecidableEq, Repr

/-- Modelled from the spec: the audio decoding helper decodeAudioData lives
in utils/audioUtils, outside src/. Per spec section 4.1 it interprets the
chunk as mono PCM at the given rate, so a buffer of n sample frames decoded
at 24000 Hz has duration n / 24000 seconds. -/
def bufferDuration (frames : Nat) : ℚ :=
  (frames : ℚ) / 24000

/-- The enqueue path of the onmessage audio branch, statement by statement
(src/unnamed/part_002 lines 144-152, identically
src/components/VideoProcessor.tsx lines 413-421):
clamp the clock to max(nextStartTime, ctx.currentTime), decode the chunk,
create and connect a source, attach the ended listener, start the source at
the clock, advance the clock by the buffer duration, and only then add the
handle to the active set. Returns the new state together with the ordered
trace of executed statements. -/
def enqueue (st : SchedulerState) (currentTime : ℚ) (frames : Nat) :
    SchedulerState × List OpKind :=
  let t0 := max st.nextStartTime currentTime
  let d := bufferDuration frames
  let h : PlaybackHandle := { id := st.nextId, seg := { start := t0, dur := d } }
  ({ nextStartTime := t0 + d
     activeHandles := st.activeHandles ++ [h]
     nextId := st.nextId + 1
     scheduled := st.scheduled ++ [h.seg]
     stopLog := st.stopLog },
   [OpKind.setClockMax, OpKind.decodeChunk, OpKind.createSource,
    OpKind.connectSource, OpKind.listenEnded, OpKind.startSource,
    OpKind.advanceClock, OpKind.registerHandle])

/-- The interruption branch of the transcriber onmessage handler
(src/unnamed/part_002 lines 154-158): stop every active handle, clear the
set, and reset the clock to 0. -/
def interruptSched (st : SchedulerState) : SchedulerState :=
  { nextStartTime := 0
    activeHandles := []
    nextId := st.nextId
    scheduled := st.scheduled
    stopLog := st.stopLog ++ st.activeHandles.map (fun h => h.id) }

/-- Folding a list of (ctx.currentTime, decoded frame count) inputs through
the enqueue path. -/
def runEnqueues (st : SchedulerState) (inputs : List (ℚ × Nat)) :
    SchedulerState :=
  inputs.foldl (fun s p => (enqueue s p.1 p.2).1) st

/-! ## Media resources and teardown -/

/-- The mutable refs holding acquired browser resources. The media refs are
never set back to null by the code; only the connection ref is nulled.
Audio contexts carry their closed flag (the state property). -/
structure MediaRefs where
  mediaStreamTracks : Option (List Nat)
  scriptProcessor : Bool
  mediaStreamSource : Bool
  inputCtxClosed : Option Bool
  outputCtxClosed : Option Bool
deriving DecidableEq, Repr

/-- All refs null: the component state before any session was started. -/
def emptyResources : MediaRefs :=
  { mediaStreamTracks := none, scriptProcessor := false
    mediaStreamSource := false, inputCtxClosed := none
    outputCtxClosed := none }

/-- Observable resource operations issued by teardown and stop. -/
inductive ResOp where
  | trackStop (id : Nat)
  | disconnectProcessor
  | disconnectSource
  | closeInputCtx
  | closeOutputCtx
  | remoteClose
deriving DecidableEq, Repr

/-- The teardown body shared by handleSessionEnded
(src/unnamed/part_002 lines 80-84) and handleDeepDiveSessionEnded
(src/components/VideoProcessor.tsx lines 343-347): stop every capture
track if a stream ref is present, disconnect the processor and source nodes
if present, and close each audio context that is present and not already
closed. The refs themselves are left in place (the source never nulls
them); only the context closed flags change. -/
def releaseResources (r : MediaRefs) : MediaRefs × List ResOp :=
  let ops :=
    (match r.mediaStreamTracks with
     | some ts => ts.map ResOp.trackStop
     | none => [])
    ++ (if r.scriptProcessor then [ResOp.disconnectProcessor] else [])
    ++ (if r.mediaStreamSource then [ResOp.disconnectSource] else [])
    ++ (match r.inputCtxClosed with
        | some false => [ResOp.closeInputCtx]
        | _ => [])
    ++ (match r.outputCtxClosed with
        | some false => [ResOp.closeOutputCtx]
        | _ => [])
  ({ r with
     inputCtxClosed := r.inputCtxClosed.map (fun _ => true)
     outputCtxClosed := r.outputCtxClosed.map (fun _ => true) }, ops)

/-! ## Audio transcriber component (src/unnamed/part_002) -/

/-- State of the AudioTranscriber component: the conversation list, the
scheduler state, the in-memory history and the persisted storage entry
(modelled as the list the stored JSON string encodes; none when the key is
absent), the session ref presence flag, the active flag, and the media
refs. -/
structure TranscriberState where
  conversation : List ConversationTurn
  sched : SchedulerState
  history : List AudioHistoryItem
  store : Option (List AudioHistoryItem)
  session : Bool
  isSessionActive : Bool
  resources : MediaRefs
deriving DecidableEq, Repr

/-- The conversation update of the transcriber onmessage handler
(src/unnamed/part_002 lines 129-139): when a transcription fragment is
present (input takes precedence over output), append its text to the
trailing turn when that turn has the same speaker and is not final,
otherwise push a new non-final turn. -/
def transcriberApplyFragment (conv : List ConversationTurn)
    (speaker : Speaker) (txt : String) : List ConversationTurn :=
  match conv.getLast? with
  | some last =>
      if last.speaker = speaker ∧ last.isFinal = false then
        conv.dropLast ++ [{ last with text := last.text ++ txt }]
      else
        conv ++ [{ speaker := speaker, text := txt, isFinal := false }]
  | none => conv ++ [{ speaker := speaker, text := txt, isFinal := false }]

/-- The transcription branch condition and dispatch of
src/unnamed/part_002 lines 129-132: isInput decides speaker and which text
field is read. Returns none when neither transcription field is present. -/
def transcriptionOf (msg : LiveMsg) : Option (Speaker × String) :=
  match msg.inputTranscription with
  | some t => some (Speaker.user, t)
  | none =>
      match msg.outputTranscription with
      | some t => some (Speaker.model, t)
      | none => none

/-- The transcriber onmessage handler (src/unnamed/part_002 lines 128-162),
branch by branch in program order: transcription fragment, audio enqueue
(guarded on the output context ref being present), interruption, and
turn-complete (mark every turn final). currentTime is ctx.currentTime at
the moment the handler runs. -/
def audioTranscriberOnMessage (currentTime : ℚ) (st : TranscriberState)
    (msg : LiveMsg) : TranscriberState :=
  let conv1 :=
    match transcriptionOf msg with
    | some (spk, txt) => transcriberApplyFragment st.conversation spk txt
    | none => st.conversation
  let sched1 :=
    match msg.audioFrames, st.resources.outputCtxClosed with
    | some fr, some _ => (enqueue st.sched currentTime fr).1
    | _, _ => st.sched
  let sched2 := if msg.interrupted then interruptSched sched1 else sched1
  let conv2 :=
    if msg.turnComplete then
      conv1.map (fun t => { t with isFinal := true })
    else conv1
  { st with conversation := conv2, sched := sched2 }

/-- Folding a list of (ctx.currentTime, message) pairs through the
transcriber onmessage handler. -/
def runTranscriber (st : TranscriberState) (inputs : List (ℚ × LiveMsg)) :
    TranscriberState :=
  inputs.foldl (fun s p => audioTranscriberOnMessage p.1 s p.2) st

/-- Component state right after startSession wired the session up
(src/unnamed/part_002 lines 96-108): conversation cleared, scheduler
reset, session ref present, active. History and store are parameters since
startSession leaves them alone. -/
def openTranscriberState (hist : List AudioHistoryItem)
    (store : Option (List AudioHistoryItem)) : TranscriberState :=
  { conversation := [], sched := freshSched, history := hist
    store := store, session := true, isSessionActive := true
    resources := { mediaStreamTracks := some [0], scriptProcessor := true
                   mediaStreamSource := true, inputCtxClosed := some false
                   outputCtxClosed := some false } }

/-- saveToHistory (src/unnamed/part_002 lines 56-66): return unchanged on
an empty conversation; otherwise prepend a new item (id and timestamp from
Date.now()), keep the first 10, and persist the updated list. -/
def saveToHistory (now : Nat) (conv : List ConversationTurn)
    (hist : List AudioHistoryItem)
    (store : Option (List AudioHistoryItem)) :
    List AudioHistoryItem × Option (List AudioHistoryItem) :=
  if conv = [] then (hist, store)
  else
    let item : AudioHistoryItem :=
      { id := toString now, timestamp := now, conversation := conv }
    let updated := (item :: hist).take 10
    (updated, some updated)

/-- handleSessionEnded (src/unnamed/part_002 lines 79-94): release the
media resources, save the conversation to history when the session ref is
present and the conversation is nonempty, null the session ref, and clear
the active flag. -/
def handleSessionEnded (now : Nat) (st : TranscriberState) :
    TranscriberState × List ResOp :=
  let rel := releaseResources st.resources
  let hs :=
    if st.session = true ∧ st.conversation ≠ [] then
      saveToHistory now st.conversation st.history st.store
    else (st.history, st.store)
  ({ st with resources := rel.1, history := hs.1, store := hs.2
             session := false, isSessionActive := false }, rel.2)

/-- stopSession (src/unnamed/part_002 lines 176-180): when the session ref
is present, request the remote close; nothing else happens in this call
(teardown is driven by the onclose callback). -/
def stopSession (st : TranscriberState) : TranscriberState × List ResOp :=
  (st, if st.session then [ResOp.remoteClose] else [])

/-- The history-loading effect (src/unnamed/part_002 lines 49-54): history
starts empty; when a stored string is present it is parsed, and a parse
failure is caught, leaving the empty initial history. The JSON parser is
an external platform primitive and is passed as a parameter returning none
exactly on unparseable input. -/
def loadHistory (stored : Option String)
    (parse : String → Option (List AudioHistoryItem)) :
    List AudioHistoryItem :=
  match stored with
  | none => []
  | some s =>
      match parse s with
      | some h => h
      | none => []

/-! ## Deep-dive live session (src/components/VideoProcessor.tsx) -/

/-- deepDiveStatus values (src/components/VideoProcessor.tsx line 95). -/
inductive DDStatus where
  | idle
  | active
  | generatingReport
  | complete
deriving DecidableEq, Repr

/-- State of the deep-dive live session inside VideoProcessor. -/
structure DeepDiveState where
  deepDiveConversation : List DDTurn
  sched : SchedulerState
  learningReport : Option ReportArgs
  deepDiveStatus : DDStatus
  session : Bool
  resources : MediaRefs
deriving DecidableEq, Repr

/-- handleDeepDiveSessionEnded
(src/components/VideoProcessor.tsx lines 342-351): release the media
resources, null the session ref, and set the status back to idle unless it
is complete. The guard at line 350 does not read the current status: the
function is a useCallback closure, so it compares the deepDiveStatus value
captured by the render that created the closure, passed here as
capturedStatus. When that captured value is not complete the status is
set to idle regardless of the current status. -/
def handleDeepDiveSessionEnded (capturedStatus : DDStatus)
    (st : DeepDiveState) : DeepDiveState × List ResOp :=
  let rel := releaseResources st.resources
  ({ st with resources := rel.1, session := false
             deepDiveStatus :=
               if capturedStatus ≠ DDStatus.complete then DDStatus.idle
               else st.deepDiveStatus }, rel.2)

/-- stopDeepDive (src/components/VideoProcessor.tsx lines 353-356): when
the session ref is present request the remote close, then unconditionally
run handleDeepDiveSessionEnded. Like that function it is a useCallback
closure carrying the render-captured status. -/
def stopDeepDive (capturedStatus : DDStatus) (st : DeepDiveState) :
    DeepDiveState × List ResOp :=
  let closeOps : List ResOp :=
    if st.session then [ResOp.remoteClose] else []
  let ended := handleDeepDiveSessionEnded capturedStatus st
  (ended.1, closeOps ++ ended.2)

/-- The input-transcription merge of the deep-dive handler
(src/components/VideoProcessor.tsx lines 394-401): append to the last turn
whenever it is a user turn, else push a new user turn. There is no isFinal
guard in this implementation. -/
def ddApplyUserFragment (conv : List DDTurn) (txt : String) : List DDTurn :=
  match conv.getLast? with
  | some last =>
      if last.speaker = Speaker.user then
        conv.dropLast ++ [{ last with text := last.text ++ txt }]
      else conv ++ [{ speaker := Speaker.user, text := txt }]
  | none => conv ++ [{ speaker := Speaker.user, text := txt }]

/-- The output-transcription merge of the deep-dive handler
(src/components/VideoProcessor.tsx lines 402-409), symmetric to the user
case. -/
def ddApplyModelFragment (conv : List DDTurn) (txt : String) : List DDTurn :=
  match conv.getLast? with
  | some last =>
      if last.speaker = Speaker.model then
        conv.dropLast ++ [{ last with text := last.text ++ txt }]
      else conv ++ [{ speaker := Speaker.model, text := txt }]
  | none => conv ++ [{ speaker := Speaker.model, text := txt }]

/-- The deep-dive onmessage handler
(src/components/VideoProcessor.tsx lines 393-431), branch by branch in
program order: input transcription, output transcription (both may fire on
one message), audio enqueue (guarded on the output context ref), and the
tool-call branch, which on generateLearningReport with arguments stores
the report, sets the status to complete, and calls stopDeepDive. This
handler has no branch for the interrupted flag and none for turnComplete.
A message whose functionCalls list is empty is treated as carrying no tool
call. The handler is one of the connect callbacks, created in the render
in which startDeepDive ran, so the stopDeepDive it invokes carries the
status captured by that render (idle for an actually started session,
since the start button renders only while idle); capturedStatus is that
value. Returns the new state and the resource operations issued. -/
def deepDiveOnMessage (capturedStatus : DDStatus) (currentTime : ℚ)
    (st : DeepDiveState) (msg : LiveMsg) : DeepDiveState × List ResOp :=
  let conv1 :=
    match msg.inputTranscription with
    | some txt => ddApplyUserFragment st.deepDiveConversation txt
    | none => st.deepDiveConversation
  let conv2 :=
    match msg.outputTranscription with
    | some txt => ddApplyModelFragment conv1 txt
    | none => conv1
  let sched1 :=
    match msg.audioFrames, st.resources.outputCtxClosed with
    | some fr, some _ => (enqueue st.sched currentTime fr).1
    | _, _ => st.sched
  let st1 := { st with deepDiveConversation := conv2, sched := sched1 }
  match msg.functionCalls.head? with
  | some fc =>
      match fc.args with
      | some a =>
          if fc.name = "generateLearningReport" then
            let st2 := { st1 with learningReport := some a
                                  deepDiveStatus := DDStatus.complete }
            stopDeepDive capturedStatus st2
          else (st1, [])
      | none => (st1, [])
  | none => (st1, [])

/-! ## PCM encoding (the onaudioprocess float-to-int16 loop,
src/unnamed/part_002 lines 117-124 and
src/components/VideoProcessor.tsx lines 382-389) -/

/-- JavaScript number-to-integer truncation (ToIntegerOrInfinity):
truncation toward zero. -/
def jsTrunc (q : ℚ) : ℤ :=
  if 0 ≤ q then ⌊q⌋ else ⌈q⌉

/-- JavaScript ToInt16: wrap an integer into the signed 16-bit range
modulo 2^16. This is the coercion applied on assignment into an
Int16Array. -/
def jsToInt16 (z : ℤ) : ℤ :=
  ((z + 32768) % 65536) - 32768

/-- One iteration of the capture loop: int16[i] = inputData[i] * 32768,
where the assignment into the Int16Array truncates and wraps. -/
def floatToPCM16Sample (s : ℚ) : ℤ :=
  jsToInt16 (jsTrunc (s * 32768))

/-- Saturating (clamping) 16-bit conversion, the alternative the source
does not implement. -/
def saturate16 (z : ℤ) : ℤ :=
  max (-32768) (min 32767 z)

/-- The byte view new Uint8Array(int16.buffer) of one encoded sample:
Int16Array storage is little-endian on the supported platforms, so the
low byte comes first. -/
def int16ToBytesLE (v : ℤ) : List Nat :=
  [(v % 65536).toNat % 256, (v % 65536).toNat / 256]

/-- The whole onaudioprocess encoding step: every captured sample is
converted and the Int16Array buffer is viewed as bytes in order. -/
def onaudioprocessEncode (inputData : List ℚ) : List Nat :=
  (inputData.map floatToPCM16Sample).flatMap int16ToBytesLE

/-! ## Spec-side definitions (phrased from the specification text, for
refinement comparison) and concrete fixtures -/

/-- Spec-side transcript rule, following the words of the spec: a
fragment text is appended to the trailing turn if that turn has the same
speaker and is not yet final, and otherwise a new turn
(speaker, text, isFinal false) is started. -/
def specAppendFragment (conv : List ConversationTurn) (spk : Speaker)
    (txt : String) : List ConversationTurn :=
  match conv.getLast? with
  | some last =>
      if last.speaker = spk ∧ last.isFinal = false then
        conv.dropLast ++ [{ last with text := last.text ++ txt }]
      else
        conv ++ [{ speaker := spk, text := txt, isFinal := false }]
  | none => [{ speaker := spk, text := txt, isFinal := false }]

/-- Spec-side rule: a turn-complete signal marks all current turns final. -/
def specFinalizeAll (conv : List ConversationTurn) : List ConversationTurn :=
  conv.map (fun t => { t with isFinal := true })

/-- Spec-side description of how one inbound message updates the
transcript: apply the fragment rule when the message carries a
transcription fragment, then the finalize rule when it signals turn
completion. -/
def specTranscriptUpdate (conv : List ConversationTurn) (msg : LiveMsg) :
    List ConversationTurn :=
  let conv1 :=
    match transcriptionOf msg with
    | some (spk, txt) => specAppendFragment conv spk txt
    | none => conv
  if msg.turnComplete then specFinalizeAll conv1 else conv1

/-- Fragment ("user", "Hel", false) of the worked example, as a message. -/
def transcriptMsgHel : LiveMsg :=
  { inputTranscription := some "Hel", outputTranscription := none
    audioFrames := none, interrupted := false, turnComplete := false
    functionCalls := [] }

/-- Fragment ("user", "lo", false) of the worked example. -/
def transcriptMsgLo : LiveMsg :=
  { transcriptMsgHel with inputTranscription := some "lo" }

/-- Fragment ("user", "", true) of the worked example: empty fragment text
together with the turn-complete signal. -/
def transcriptMsgDone : LiveMsg :=
  { transcriptMsgHel with inputTranscription := some "", turnComplete := true }

/-- Two playback segments overlap when their half-open intervals
[start, start + dur) have a common point. -/
def overlaps (a b : Segment) : Prop :=
  max a.start b.start < min (a.start + a.dur) (b.start + b.dur)

/-- Scheduler bookkeeping invariant: every scheduled segment ends no later
than the playback clock, and the segments are scheduled back to back in
order (each ends no later than the next one starts). -/
def SchedOrdered (st : SchedulerState) : Prop :=
  (∀ seg ∈ st.scheduled, seg.start + seg.dur ≤ st.nextStartTime) ∧
  st.scheduled.Pairwise (fun a b => a.start + a.dur ≤ b.start)

/-- Adjacency property of the transcript: of two adjacent turns, the
earlier one has a different speaker or is already final. -/
def adjacentTurnsOk (a b : ConversationTurn) : Prop :=
  a.speaker ≠ b.speaker ∨ a.isFinal = true

/-- A message carrying only the interruption flag. -/
def interruptOnlyMsg : LiveMsg :=
  { inputTranscription := none, outputTranscription := none
    audioFrames := none, interrupted := true, turnComplete := false
    functionCalls := [] }

/-- A deep-dive state with one active playback handle and a nonzero
playback clock: the model is speaking. -/
def ddSpeakingState : DeepDiveState :=
  { deepDiveConversation := []
    sched := { nextStartTime := 5
               activeHandles := [{ id := 0, seg := { start := 0, dur := 5 } }]
               nextId := 1
               scheduled := [{ start := 0, dur := 5 }]
               stopLog := [] }
    learningReport := none, deepDiveStatus := DDStatus.active
    session := true
    resources := { mediaStreamTracks := some [0], scriptProcessor := true
                   mediaStreamSource := true, inputCtxClosed := some false
                   outputCtxClosed := some false } }

/-- The deep-dive component state right after a session was torn down:
the session ref is null and the status is idle, but the media refs still
hold the released resources (the source never nulls them) with both audio
contexts closed. -/
def ddAfterTeardownState : DeepDiveState :=
  { deepDiveConversation := [], sched := freshSched
    learningReport := none, deepDiveStatus := DDStatus.idle
    session := false
    resources := { mediaStreamTracks := some [0], scriptProcessor := true
                   mediaStreamSource := true, inputCtxClosed := some true
                   outputCtxClosed := some true } }

/-- A message carrying the generateLearningReport tool invocation with
structured arguments. -/
def reportMsg : LiveMsg :=
  { inputTranscription := none, outputTranscription := none
    audioFrames := none, interrupted := false, turnComplete := false
    functionCalls := [{ name := "generateLearningReport"
                        args := some { strengths := "good grasp"
                                       weaknesses := "needs review"
                                       plan := "practice daily" } }] }

/-- The transcriber component before any session was started: no session
ref, no resources. -/
def freshTranscriberState : TranscriberState :=
  { conversation := [], sched := freshSched, history := [], store := none
    session := false, isSessionActive := false, resources := emptyResources }

/-- The deep-dive component before any session was started. -/
def freshDeepDiveState : DeepDiveState :=
  { deepDiveConversation := [], sched := freshSched, learningReport := none
    deepDiveStatus := DDStatus.idle, session := false
    resources := emptyResources }

/-- Reading a pair of little-endian bytes back into a signed 16-bit
integer (a list of any other shape reads as 0). -/
def decodeBytesLE (bytes : List Nat) : ℤ :=
  match bytes with
  | [b0, b1] => jsToInt16 ((b0 : ℤ) + 256 * (b1 : ℤ))
  | _ => 0

/-! ## Helper lemmas -/

theorem applyFragment_eq_spec (conv : List ConversationTurn) (spk : Speaker)
    (txt : String) :
    transcriberApplyFragment conv spk txt = specAppendFragment conv spk txt := by
  cases h : conv.getLast? with
  | none =>
      have hc : conv = [] := List.getLast?_eq_none_iff.mp h
      subst hc
      rfl
  | some last =>
      simp [transcriberApplyFragment, specAppendFragment, h]

theorem chain'_adjacent_applyFragment {conv : List ConversationTurn}
    (spk : Speaker) (txt : String)
    (h : conv.Chain' adjacentTurnsOk) :
    (transcriberApplyFragment conv spk txt).Chain' adjacentTurnsOk := by
  rcases List.eq_nil_or_concat' conv with rfl | ⟨L, last, rfl⟩
  · simp [transcriberApplyFragment, List.chain'_singleton]
  · by_cases hc : last.speaker = spk ∧ last.isFinal = false
    · simp only [transcriberApplyFragment, List.getLast?_concat, if_pos hc,
        List.dropLast_concat]
      rw [List.chain'_append] at h ⊢
      refine ⟨h.1, List.chain'_singleton _, ?_⟩
      intro x hx y hy
      simp only [List.head?_cons, Option.mem_def, Option.some.injEq] at hy
      subst hy
      have hlast := h.2.2 x hx last (by simp)
      simpa [adjacentTurnsOk] using hlast
    · simp only [transcriberApplyFragment, List.getLast?_concat, if_neg hc]
      rw [List.chain'_append]
      refine ⟨h, List.chain'_singleton _, ?_⟩
      intro x hx y hy
      simp only [List.getLast?_concat, Option.mem_def, Option.some.injEq] at hx
      simp only [List.head?_cons, Option.mem_def, Option.some.injEq] at hy
      subst hx
      subst hy
      rw [Classical.not_and_iff_or_not_not] at hc
      rcases hc with hc | hc
      · exact Or.inl hc
      · exact Or.inr (by simpa using hc)

theorem chain'_adjacent_finalize (conv : List ConversationTurn) :
    (conv.map (fun t => { t with isFinal := true })).Chain' adjacentTurnsOk := by
  rw [List.chain'_map]
  induction conv with
  | nil => trivial
  | cons x xs ih =>
      cases xs with
      | nil => simp
      | cons y ys =>
          rw [List.chain'_cons]
          exact ⟨Or.inr rfl, ih⟩

theorem chain'_adjacent_step (ct : ℚ) (st : TranscriberState) (msg : LiveMsg)
    (h : st.conversation.Chain' adjacentTurnsOk) :
    (audioTranscriberOnMessage ct st msg).conversation.Chain'
      adjacentTurnsOk := by
  have h1 :
      (match transcriptionOf msg with
       | some (spk, txt) => transcriberApplyFragment st.conversation spk txt
       | none => st.conversation).Chain' adjacentTurnsOk := by
    cases htc : transcriptionOf msg with
    | none => exact h
    | some p => exact chain'_adjacent_applyFragment p.1 p.2 h
  unfold audioTranscriberOnMessage
  cases hturn : msg.turnComplete with
  | false => simpa [hturn] using h1
  | true => simpa [hturn] using chain'_adjacent_finalize _

theorem runTranscriber_chain'_adjacent (inputs : List (ℚ × LiveMsg)) :
    ∀ st : TranscriberState, st.conversation.Chain' adjacentTurnsOk →
      (runTranscriber st inputs).conversation.Chain' adjacentTurnsOk := by
  induction inputs with
  | nil => intro st h; exact h
  | cons p rest ih =>
      intro st h
      exact ih _ (chain'_adjacent_step p.1 st p.2 h)

theorem bufferDuration_nonneg (fr : Nat) : 0 ≤ bufferDuration fr := by
  unfold bufferDuration
  positivity

theorem nextStartTime_le_enqueue (st : SchedulerState) (ct : ℚ) (fr : Nat) :
    st.nextStartTime ≤ (enqueue st ct fr).1.nextStartTime := by
  simp only [enqueue]
  have h1 : st.nextStartTime ≤ max st.nextStartTime ct := le_max_left _ _
  have h2 : 0 ≤ bufferDuration fr := bufferDuration_nonneg fr
  linarith

theorem schedOrdered_enqueue {st : SchedulerState} (ct : ℚ) (fr : Nat)
    (h : SchedOrdered st) : SchedOrdered (enqueue st ct fr).1 := by
  obtain ⟨hend, hpw⟩ := h
  have h1 : st.nextStartTime ≤ max st.nextStartTime ct := le_max_left _ _
  have h2 : 0 ≤ bufferDuration fr := bufferDuration_nonneg fr
  constructor
  · intro seg hseg
    simp only [enqueue, List.mem_append, List.mem_singleton] at hseg
    rcases hseg with hseg | hseg
    · have := hend seg hseg
      simp only [enqueue]
      linarith
    · subst hseg
      simp only [enqueue]
      exact le_refl _
  · simp only [enqueue]
    rw [List.pairwise_append]
    refine ⟨hpw, List.pairwise_singleton _ _, ?_⟩
    intro a ha b hb
    rw [List.mem_singleton] at hb
    subst hb
    have := hend a ha
    simpa using le_trans this h1

theorem schedOrdered_freshSched : SchedOrdered freshSched := by
  constructor
  · intro seg hseg
    simp [freshSched] at hseg
  · simp [freshSched]

theorem schedOrdered_runEnqueues (inputs : List (ℚ × Nat)) :
    ∀ st : SchedulerState, SchedOrdered st →
      SchedOrdered (runEnqueues st inputs) := by
  induction inputs with
  | nil => intro st h; exact h
  | cons p rest ih =>
      intro st h
      exact ih _ (schedOrdered_enqueue p.1 p.2 h)

theorem jsToInt16_bounds (z : ℤ) :
    -32768 ≤ jsToInt16 z ∧ jsToInt16 z ≤ 32767 := by
  unfold jsToInt16
  omega

theorem jsToInt16_eq_self {z : ℤ} (h1 : -32768 ≤ z) (h2 : z ≤ 32767) :
    jsToInt16 z = z := by
  unfold jsToInt16
  omega

theorem jsTrunc_bounds {q : ℚ} (h1 : -1 ≤ q) (h2 : q < 1) :
    -32768 ≤ jsTrunc (q * 32768) ∧ jsTrunc (q * 32768) ≤ 32767 := by
  have hr1 : (-32768 : ℚ) ≤ q * 32768 := by nlinarith
  have hr2 : q * 32768 < 32768 := by nlinarith
  unfold jsTrunc
  split
  · constructor
    · have : (0 : ℤ) ≤ ⌊q * 32768⌋ := Int.floor_nonneg.mpr (by assumption)
      omega
    · have : ⌊q * 32768⌋ < (32768 : ℤ) := by
        rw [Int.floor_lt]
        exact_mod_cast hr2
      omega
  · constructor
    · have hle : ((-32768 : ℤ) : ℚ) ≤ (⌈q * 32768⌉ : ℚ) := by
        calc ((-32768 : ℤ) : ℚ) = (-32768 : ℚ) := by norm_num
        _ ≤ q * 32768 := hr1
        _ ≤ (⌈q * 32768⌉ : ℚ) := Int.le_ceil _
      exact_mod_cast hle
    · have hq0 : q * 32768 ≤ 0 := by
        have : ¬ (0 : ℚ) ≤ q * 32768 := by assumption
        linarith [not_le.mp this]
      have : ⌈q * 32768⌉ ≤ 0 := Int.ceil_le.mpr (by exact_mod_cast hq0)
      omega

theorem floatToPCM16Sample_bounds (s : ℚ) :
    -32768 ≤ floatToPCM16Sample s ∧ floatToPCM16Sample s ≤ 32767 :=
  jsToInt16_bounds _

theorem jsTrunc_three_halves : jsTrunc ((3 / 2 : ℚ) * 32768) = 49152 := by
  have h1 : ((3 / 2 : ℚ) * 32768) = ((49152 : ℤ) : ℚ) := by norm_num
  unfold jsTrunc
  rw [if_pos (by norm_num), h1, Int.floor_intCast]

/-! ## Claim theorems -/

/-- C1: transcript assembly. Every inbound message updates the
transcriber conversation exactly as the spec describes (append to the
trailing turn when same speaker and not final, else start a new non-final
turn; the turn-complete signal marks every turn final), and the worked
fragment sequence ("user","Hel",false), ("user","lo",false),
("user","",true) yields exactly the single turn (user, "Hello", final). -/
theorem transcript_assembly :
    (∀ (ct : ℚ) (st : TranscriberState) (msg : LiveMsg),
        (audioTranscriberOnMessage ct st msg).conversation
          = specTranscriptUpdate st.conversation msg)
    ∧ (runTranscriber (openTranscriberState [] none)
         [(0, transcriptMsgHel), (0, transcriptMsgLo),
          (0, transcriptMsgDone)]).conversation
        = [{ speaker := Speaker.user, text := "Hello", isFinal := true }] := by
  constructor
  · intro ct st msg
    unfold audioTranscriberOnMessage specTranscriptUpdate specFinalizeAll
    cases htc : transcriptionOf msg with
    | none => cases msg.turnComplete <;> simp [htc]
    | some p =>
        obtain ⟨spk, txt⟩ := p
        cases msg.turnComplete <;> simp [htc, applyFragment_eq_spec]
  · decide

/-- C3: for any sequence of enqueue operations starting from the reset
scheduler state with no intervening interrupt, no two scheduled segments
have overlapping half-open intervals, and the playback clock nextStartTime
is non-decreasing across consecutive enqueue calls. -/
theorem scheduler_nonoverlap_and_monotone :
    (∀ inputs : List (ℚ × Nat),
        ((runEnqueues freshSched inputs).scheduled).Pairwise
          (fun a b => ¬ overlaps a b))
    ∧ (∀ (inputs : List (ℚ × Nat)) (p : ℚ × Nat),
        (runEnqueues freshSched inputs).nextStartTime
          ≤ (runEnqueues freshSched (inputs ++ [p])).nextStartTime) := by
  constructor
  · intro inputs
    have h := schedOrdered_runEnqueues inputs freshSched schedOrdered_freshSched
    refine h.2.imp ?_
    intro a b hab
    unfold overlaps
    intro hlt
    have h1 : min (a.start + a.dur) (b.start + b.dur) ≤ a.start + a.dur :=
      min_le_left _ _
    have h2 : b.start ≤ max a.start b.start := le_max_right _ _
    linarith
  · intro inputs p
    simp only [runEnqueues, List.foldl_append, List.foldl_cons, List.foldl_nil]
    exact nextStartTime_le_enqueue _ p.1 p.2

/-- C4 counterexample: in the operation trace the enqueue path actually
executes, the handle registration does not precede the start of playback;
source.start runs first and the handle is added to the active set two
statements later. This refutes the claimed registration-before-start
ordering at the concrete input (fresh scheduler, clock 0, 480 frames). -/
theorem enqueue_registration_not_before_start :
    OpKind.registerHandle ∈ (enqueue freshSched 0 480).2
    ∧ OpKind.startSource ∈ (enqueue freshSched 0 480).2
    ∧ ¬ (enqueue freshSched 0 480).2.indexOf OpKind.registerHandle
          < (enqueue freshSched 0 480).2.indexOf OpKind.startSource := by
  decide

/-- C4 amended: in every enqueue operation, both the playback start and
the registration of the handle occur, and the start of playback precedes
the addition of the handle to the active set (the converse of the claimed
ordering); both happen within the one synchronous handler step. -/
theorem enqueue_start_precedes_registration (st : SchedulerState) (ct : ℚ)
    (fr : Nat) :
    OpKind.startSource ∈ (enqueue st ct fr).2
    ∧ OpKind.registerHandle ∈ (enqueue st ct fr).2
    ∧ (enqueue st ct fr).2.indexOf OpKind.startSource
        < (enqueue st ct fr).2.indexOf OpKind.registerHandle := by
  have h : (enqueue st ct fr).2
      = [OpKind.setClockMax, OpKind.decodeChunk, OpKind.createSource,
         OpKind.connectSource, OpKind.listenEnded, OpKind.startSource,
         OpKind.advanceClock, OpKind.registerHandle] := rfl
  rw [h]
  decide

/-- C9: after any sequence of inbound messages processed from a freshly
started session, any two adjacent turns of the transcriber conversation
either have different speakers or the earlier one is final. -/
theorem transcript_adjacent_invariant
    (hist : List AudioHistoryItem) (store : Option (List AudioHistoryItem))
    (inputs : List (ℚ × LiveMsg)) :
    ((runTranscriber (openTranscriberState hist store)
        inputs).conversation).Chain' adjacentTurnsOk :=
  runTranscriber_chain'_adjacent inputs _ trivial

/-- C2 counterexample: the deep-dive message handler has no branch for the
interrupted flag, so an interruption arriving while the model is audibly
speaking (one active handle, nonzero clock) leaves the playback state
untouched: the handle set stays nonempty and nextStartTime stays nonzero,
refuting the claim for that live-session implementation. -/
theorem deep_dive_ignores_interruption :
    (deepDiveOnMessage DDStatus.idle 0 ddSpeakingState
        interruptOnlyMsg).1.sched.activeHandles ≠ []
    ∧ (deepDiveOnMessage DDStatus.idle 0 ddSpeakingState
        interruptOnlyMsg).1.sched.nextStartTime ≠ 0 := by
  decide

/-- C2 amended: only the audio transcriber implements interruption
handling. There, any message with the interrupted flag leaves the active
handle set empty and the clock at 0, and every previously active handle
has stop invoked on it; the deep-dive handler ignores a pure interruption
message entirely, leaving its state unchanged and performing no
operations. -/
theorem interruption_handling :
    (∀ (ct : ℚ) (st : TranscriberState) (msg : LiveMsg),
        msg.interrupted = true →
          (audioTranscriberOnMessage ct st msg).sched.activeHandles = []
          ∧ (audioTranscriberOnMessage ct st msg).sched.nextStartTime = 0
          ∧ ∀ h ∈ st.sched.activeHandles,
              h.id ∈ (audioTranscriberOnMessage ct st msg).sched.stopLog)
    ∧ (∀ (cs : DDStatus) (ct : ℚ) (st : DeepDiveState) (msg : LiveMsg),
        msg.inputTranscription = none → msg.outputTranscription = none →
        msg.audioFrames = none → msg.functionCalls = [] →
          deepDiveOnMessage cs ct st msg = (st, [])) := by
  constructor
  · intro ct st msg hint
    simp only [audioTranscriberOnMessage, hint, if_true]
    refine ⟨rfl, rfl, ?_⟩
    intro h hmem
    simp only [interruptSched, List.mem_append, List.mem_map]
    right
    refine ⟨h, ?_, rfl⟩
    cases haf : msg.audioFrames with
    | none => simpa using hmem
    | some fr =>
        cases hoc : st.resources.outputCtxClosed with
        | none => simpa using hmem
        | some b => simp [enqueue, hmem]
  · intro cs ct st msg h1 h2 h3 h4
    simp [deepDiveOnMessage, h1, h2, h3, h4]

/-- C2 witness: at concrete inputs, the transcriber clears playback on an
interruption and the deep-dive handler leaves a speaking state unchanged
on a pure interruption message. -/
theorem interruption_handling_witness :
    ((audioTranscriberOnMessage 0 (openTranscriberState [] none)
        interruptOnlyMsg).sched.activeHandles = []
      ∧ (audioTranscriberOnMessage 0 (openTranscriberState [] none)
          interruptOnlyMsg).sched.nextStartTime = 0
      ∧ ∀ h ∈ (openTranscriberState [] none).sched.activeHandles,
          h.id ∈ (audioTranscriberOnMessage 0 (openTranscriberState [] none)
            interruptOnlyMsg).sched.stopLog)
    ∧ deepDiveOnMessage DDStatus.idle 0 ddSpeakingState interruptOnlyMsg
        = (ddSpeakingState, []) :=
  ⟨interruption_handling.1 0 (openTranscriberState [] none) interruptOnlyMsg
      rfl,
   interruption_handling.2 DDStatus.idle 0 ddSpeakingState interruptOnlyMsg
      rfl rfl rfl rfl⟩

/-- C5, evaluated at the failing input: a generateLearningReport tool
call with structured arguments arriving on an open deep-dive session
(active, one handle playing), processed by the handler closure whose
render-captured status is idle. The handler stores the arguments as the
learning report and initiates stop, requesting the remote close, but the
teardown guard compares the stale captured idle against complete and
resets the status to idle, so the session does not end in the complete
state (and the report panel of the component, rendered only when the
status is complete, never shows the artifact). The intent of the
guard at src/components/VideoProcessor.tsx line 350 and of the spec
(OPEN to COMPLETE on the tool call) is defeated by the stale closure. -/
theorem tool_call_status_reset_bug :
    (deepDiveOnMessage DDStatus.idle 0 ddSpeakingState
        reportMsg).1.learningReport
        = some { strengths := "good grasp", weaknesses := "needs review"
                 plan := "practice daily" }
    ∧ ResOp.remoteClose
        ∈ (deepDiveOnMessage DDStatus.idle 0 ddSpeakingState reportMsg).2
    ∧ (deepDiveOnMessage DDStatus.idle 0 ddSpeakingState
        reportMsg).1.deepDiveStatus = DDStatus.idle
    ∧ (deepDiveOnMessage DDStatus.idle 0 ddSpeakingState
        reportMsg).1.deepDiveStatus ≠ DDStatus.complete := by
  decide

/-- C6 counterexample: after a prior session was torn down the session
handle is absent (the component is IDLE again), yet calling stop on the
deep-dive session is not free of resource operations: the stale media refs
are still set, so it stops the capture track and disconnects the nodes
again. -/
theorem stop_when_idle_not_noop :
    ddAfterTeardownState.session = false
    ∧ (stopDeepDive DDStatus.idle ddAfterTeardownState).2 ≠ []
    ∧ ResOp.trackStop 0
        ∈ (stopDeepDive DDStatus.idle ddAfterTeardownState).2 := by
  decide

/-- C6 amended: calling stop with no session handle raises no error in
either implementation (both are total functions of the state). The
transcriber stop is then a complete no-op: no operations and an unchanged
state. The deep-dive stop performs no resource operations only when every
resource ref is absent, i.e. before any session ever started; after a
teardown the stale refs make it re-issue track-stop and disconnect calls
(see the counterexample). -/
theorem stop_idempotent_amended :
    (∀ st : TranscriberState, st.session = false → stopSession st = (st, []))
    ∧ (∀ (cs : DDStatus) (st : DeepDiveState), st.session = false →
        st.resources = emptyResources → st.deepDiveStatus = DDStatus.idle →
          stopDeepDive cs st = (st, [])) := by
  constructor
  · intro st h
    simp [stopSession, h]
  · intro cs st h1 h2 h3
    obtain ⟨conv, sch, rep, stat, ses, res⟩ := st
    simp only at h1 h2 h3
    subst h1
    subst h2
    subst h3
    simp [stopDeepDive, handleDeepDiveSessionEnded, releaseResources,
      emptyResources]

/-- C6 witness: stop on the never-started transcriber and deep-dive
states. -/
theorem stop_idempotent_amended_witness :
    stopSession freshTranscriberState = (freshTranscriberState, [])
    ∧ stopDeepDive DDStatus.idle freshDeepDiveState
        = (freshDeepDiveState, []) :=
  ⟨stop_idempotent_amended.1 freshTranscriberState rfl,
   stop_idempotent_amended.2 DDStatus.idle freshDeepDiveState rfl rfl rfl⟩

/-- C7: PCM16 encoding. For every in-range sample the encoder yields
exactly the truncation of the sample scaled by 32768; every encoded
sample is laid out as two little-endian bytes that read back to the same
signed 16-bit value; and no clamping is applied: the out-of-range sample
3/2 encodes to -16384, wrapping around instead of saturating to 32767. -/
theorem pcm16_encoding :
    (∀ s : ℚ, -1 ≤ s → s < 1 →
        floatToPCM16Sample s = jsTrunc (s * 32768))
    ∧ (∀ s : ℚ,
        decodeBytesLE (int16ToBytesLE (floatToPCM16Sample s))
          = floatToPCM16Sample s)
    ∧ (1 < (3 / 2 : ℚ)
        ∧ floatToPCM16Sample (3 / 2) = -16384
        ∧ saturate16 (jsTrunc ((3 / 2 : ℚ) * 32768)) = 32767
        ∧ floatToPCM16Sample (3 / 2)
            ≠ saturate16 (jsTrunc ((3 / 2 : ℚ) * 32768))) := by
  refine ⟨?_, ?_, ?_⟩
  · intro s h1 h2
    have hb := jsTrunc_bounds h1 h2
    exact jsToInt16_eq_self hb.1 hb.2
  · intro s
    have hb := floatToPCM16Sample_bounds s
    simp only [decodeBytesLE, int16ToBytesLE, jsToInt16] at hb ⊢
    omega
  · have hv : floatToPCM16Sample (3 / 2) = -16384 := by
      unfold floatToPCM16Sample
      rw [jsTrunc_three_halves]
      decide
    refine ⟨by norm_num, hv, ?_, ?_⟩
    · rw [jsTrunc_three_halves]
      decide
    · rw [hv, jsTrunc_three_halves]
      decide

/-- C7 witness: the in-range branch applied at the concrete sample 1/2. -/
theorem pcm16_encoding_witness :
    floatToPCM16Sample (1 / 2) = jsTrunc ((1 / 2 : ℚ) * 32768) :=
  pcm16_encoding.1 (1 / 2) (by norm_num) (by norm_num)

/-- C8: a stored history value that the JSON parser rejects loads as the
empty history list; the parse failure is caught and never surfaces. -/
theorem corrupt_history_tolerated
    (parse : String → Option (List AudioHistoryItem)) (s : String)
    (hbad : parse s = none) :
    loadHistory (some s) parse = [] := by
  simp [loadHistory, hbad]

/-- C8 witness: a concrete unparseable stored value. -/
theorem corrupt_history_tolerated_witness :
    loadHistory (some "not json") (fun _ => none) = [] :=
  corrupt_history_tolerated (fun _ => none) "not json" rfl

/-- C10: saving with an empty conversation leaves both the in-memory
history and the persisted storage entry unchanged, and the session-end
path likewise never records an empty conversation. -/
theorem empty_session_not_saved :
    (∀ (now : Nat) (hist : List AudioHistoryItem)
        (store : Option (List AudioHistoryItem)),
        saveToHistory now [] hist store = (hist, store))
    ∧ (∀ (now : Nat) (st : TranscriberState), st.conversation = [] →
        (handleSessionEnded now st).1.history = st.history
        ∧ (handleSessionEnded now st).1.store = st.store) := by
  constructor
  · intro now hist store
    simp [saveToHistory]
  · intro now st h
    simp [handleSessionEnded, h]

/-- C10 witness: the empty conversation at concrete states. -/
theorem empty_session_not_saved_witness :
    saveToHistory 0 [] [] none = ([], none)
    ∧ ((handleSessionEnded 0 (openTranscriberState [] none)).1.history
          = (openTranscriberState [] none).history
        ∧ (handleSessionEnded 0 (openTranscriberState [] none)).1.store
          = (openTranscriberState [] none).store) :=
  ⟨empty_session_not_saved.1 0 [] none,
   empty_session_not_saved.2 0 (openTranscriberState [] none) rfl⟩

end EduVerse
